import Mathlib

/-!
Verification of the operational-space / impedance controller
(`OperationalSpaceController`) of the `isaac-sim/orbit` repository.

The configuration object is embedded from
`source/extensions/omni.isaac.lab/omni/isaac/lab/controllers/operational_space_cfg.py`.
The controller class itself (`operational_space.py`) is not part of the
available source tree (only its configuration and the test
`test/controllers/test_operation_space.py` are), so the controller's
operations are modelled from the specification; where the specification and
the repository's test disagree (the width of a `pose_rel` command segment),
the test is followed.

Modelling conventions: every per-environment tensor becomes a function out
of `Fin`; floating-point numbers become real numbers; quaternions are
`(w, x, y, z)` 4-vectors; a flat command vector is a `List ℝ`; fallible
operations return `Except OpspaceError`.  The numeric-inversion-failure
error (`SingularConfigurationError`) of the specification is outside the
modelled fragment: matrix inversion is modelled by Mathlib's total
nonsingular inverse.
-/

noncomputable section

open Matrix

/-- Errors surfaced by the controller, with the names used by the
specification's error taxonomy. -/
inductive OpspaceError where
  | ConfigurationError
  | InvalidCommandShape
  | UnsupportedCommandType
  | SingularConfigurationError
  deriving DecidableEq

/-- Modelled from the spec: quaternion conjugate
(`omni.isaac.lab.utils.math.quat_conjugate`, not in the source tree). -/
def quat_conjugate (q : Fin 4 → ℝ) : Fin 4 → ℝ :=
  ![q 0, -q 1, -q 2, -q 3]

/-- Modelled from the spec: Hamilton product of two `(w, x, y, z)`
quaternions (`omni.isaac.lab.utils.math.quat_mul`, not in the source tree). -/
def quat_mul (a b : Fin 4 → ℝ) : Fin 4 → ℝ :=
  ![a 0 * b 0 - a 1 * b 1 - a 2 * b 2 - a 3 * b 3,
    a 0 * b 1 + a 1 * b 0 + a 2 * b 3 - a 3 * b 2,
    a 0 * b 2 - a 1 * b 3 + a 2 * b 0 + a 3 * b 1,
    a 0 * b 3 + a 1 * b 2 - a 2 * b 1 + a 3 * b 0]

/-- Modelled from the spec: the axis-angle 3-vector of a quaternion, with
the sign normalised so that the rotation is the shortest one
(`omni.isaac.lab.utils.math.axis_angle_from_quat`, not in the source tree). -/
def axis_angle_from_quat (q : Fin 4 → ℝ) : Fin 3 → ℝ :=
  let qs : Fin 4 → ℝ := if q 0 < 0 then (fun i => -q i) else q
  let vnorm : ℝ := Real.sqrt (qs 1 ^ 2 + qs 2 ^ 2 + qs 3 ^ 2)
  if vnorm = 0 then 0
  else fun i => 2 * Real.arctan (vnorm / qs 0) / vnorm * ![qs 1, qs 2, qs 3] i

/-- Modelled from the spec: quaternion of an axis-angle 3-vector
(`omni.isaac.lab.utils.math.quat_from_angle_axis`, not in the source tree). -/
def quat_from_angle_axis (v : Fin 3 → ℝ) : Fin 4 → ℝ :=
  let t := Real.sqrt (v 0 ^ 2 + v 1 ^ 2 + v 2 ^ 2)
  if t = 0 then ![1, 0, 0, 0]
  else ![Real.cos (t / 2), Real.sin (t / 2) * v 0 / t,
         Real.sin (t / 2) * v 1 / t, Real.sin (t / 2) * v 2 / t]

/-- Modelled from the spec: orientation error between a target and a current
quaternion, as the axis-angle vector of the relative rotation with the
shortest-rotation sign convention. -/
def quat_error_vec (qt qc : Fin 4 → ℝ) : Fin 3 → ℝ :=
  axis_angle_from_quat (quat_mul qt (quat_conjugate qc))

/-- Configuration of the operational-space controller, embedded from
`operational_space_cfg.py` (class `OperationalSpaceControllerCfg`).  The
scalar-or-sequence gain fields are modelled as their broadcast 6-vectors;
the source field `damping_ratio` is named `damping_ratios` here (same
default, one ratio per control axis). -/
structure OperationalSpaceControllerCfg where
  target_types : List String
  impedance_mode : String := "fixed"
  uncouple_motion_wrench : Bool := false
  motion_control_axes : Fin 6 → ℝ := fun _ => 1
  wrench_control_axes : Fin 6 → ℝ := fun _ => 0
  inertial_compensation : Bool := false
  gravity_compensation : Bool := false
  stiffness : Fin 6 → ℝ := fun _ => 100
  damping_ratios : Fin 6 → ℝ := fun _ => 1
  stiffness_limits : ℝ × ℝ := (0, 1000)
  damping_ratio_limits : ℝ × ℝ := (0, 100)
  wrench_stiffness : Option (Fin 6 → ℝ) := none

/-- Modelled from the spec: the kinematic/dynamic snapshot supplied fresh to
every `compute` call (`n` is the number of joints). -/
structure OpspaceIn (n : ℕ) where
  jacobian : Matrix (Fin 6) (Fin n) ℝ
  ee_pos : Fin 3 → ℝ
  ee_quat : Fin 4 → ℝ
  ee_vel : Fin 6 → ℝ
  ee_force : Fin 3 → ℝ
  mass_matrix : Matrix (Fin n) (Fin n) ℝ
  gravity : Fin n → ℝ

namespace OperationalSpaceController

/-- Modelled from the spec: the recognised impedance modes of the gain
scheduler. -/
def validImpedanceModes : List String := ["fixed", "variable", "variable_kp"]

/-- Modelled from the spec: the set of recognised task-space command types. -/
def supportedTargetTypes : List String :=
  ["pose_abs", "pose_rel", "position_abs", "position_rel", "wrench_abs"]

/-- Modelled from the spec: width of one task-space target segment of the
flat command vector.  `pose_abs` is position + quaternion (7); `pose_rel`
is position delta + axis-angle delta (6), the width fixed by the
repository's own test (`target_rel_pose_b_set`, `_check_convergence`);
positions are 3; a wrench is force + torque (6). -/
def targetWidth (t : String) : ℕ :=
  if t = "pose_abs" then 7
  else if t = "pose_rel" then 6
  else if t = "position_abs" then 3
  else if t = "position_rel" then 3
  else if t = "wrench_abs" then 6
  else 0

/-- Total width of the task-space target segments of a command vector. -/
def targetsWidth (ts : List String) : ℕ := (ts.map targetWidth).sum

/-- Modelled from the spec: number of trailing gain elements of the command
vector (6 commanded stiffness values for `variable_kp`, 6 stiffness plus 6
damping-ratio values for `variable`, none for `fixed`). -/
def gainCommandDim (cfg : OperationalSpaceControllerCfg) : ℕ :=
  if cfg.impedance_mode = "variable_kp" then 6
  else if cfg.impedance_mode = "variable" then 12
  else 0

/-- Modelled from the spec: `action_dim`, the width of a valid command
vector, computed once from the configuration. -/
def action_dim (cfg : OperationalSpaceControllerCfg) : ℕ :=
  targetsWidth cfg.target_types + gainCommandDim cfg

/-- Modelled from the spec: `set_command` validates the command vector's
width against `action_dim` and stores the vector verbatim; the current
end-effector pose is accepted but not used (relative targets are resolved
against the live pose at `compute` time). -/
def set_command (cfg : OperationalSpaceControllerCfg) (command : List ℝ)
    (ee_pose : List ℝ) : Except OpspaceError (List ℝ) :=
  if command.length = action_dim cfg then .ok command
  else .error .InvalidCommandShape

/-- The all-zero command vector of a controller configuration. -/
def zero_command (cfg : OperationalSpaceControllerCfg) : List ℝ :=
  List.replicate (action_dim cfg) 0

/-- Modelled from the spec: `reset` zeroes the stored command of the given
environment subset, or of every environment when no subset is given. -/
def reset (cfg : OperationalSpaceControllerCfg) {numEnvs : ℕ}
    (store : Fin numEnvs → List ℝ) (env_ids : Option (List (Fin numEnvs))) :
    Fin numEnvs → List ℝ :=
  fun e =>
    match env_ids with
    | none => zero_command cfg
    | some ids => if e ∈ ids then zero_command cfg else store e

/-- Modelled from the spec: proportional gains of the gain scheduler.  In
the `variable` and `variable_kp` modes the commanded stiffness values are
clamped element-wise to the configured limits; in the `fixed` mode the
configured stiffness is used. -/
def pGains (cfg : OperationalSpaceControllerCfg) (gainCmd : List ℝ) :
    Fin 6 → ℝ :=
  if cfg.impedance_mode = "variable" ∨ cfg.impedance_mode = "variable_kp" then
    fun i => min cfg.stiffness_limits.2
      (max cfg.stiffness_limits.1 (gainCmd.getD (i : ℕ) 0))
  else cfg.stiffness

/-- Modelled from the spec: per-axis damping ratios of the gain scheduler.
In the `variable` mode they are taken from the command and clamped to the
configured limits; otherwise the configured ratios are used. -/
def dampingRatiosOf (cfg : OperationalSpaceControllerCfg) (gainCmd : List ℝ) :
    Fin 6 → ℝ :=
  if cfg.impedance_mode = "variable" then
    fun i => min cfg.damping_ratio_limits.2
      (max cfg.damping_ratio_limits.1 (gainCmd.getD (6 + (i : ℕ)) 0))
  else cfg.damping_ratios

/-- Modelled from the spec: derivative gains of the gain scheduler,
`kd = 2 * sqrt(kp) * damping_ratio` element-wise. -/
def dGains (cfg : OperationalSpaceControllerCfg) (gainCmd : List ℝ) :
    Fin 6 → ℝ :=
  fun i => 2 * Real.sqrt (pGains cfg gainCmd i) * dampingRatiosOf cfg gainCmd i

/-- Modelled from the spec: the absolute target position used by a motion
command type, resolved against the live end-effector position for the
relative types and read from the command segment for the absolute ones. -/
def resolveTargetPos (t : String) (seg : List ℝ) (pos : Fin 3 → ℝ) :
    Fin 3 → ℝ :=
  if t = "pose_rel" ∨ t = "position_rel" then
    fun i => pos i + seg.getD (i : ℕ) 0
  else fun i => seg.getD (i : ℕ) 0

/-- Modelled from the spec: the absolute target orientation used by a
motion command type; a `pose_rel` delta is composed onto the live
orientation, a `pose_abs` quaternion is read from the command segment, and
the position-only types keep the current orientation. -/
def resolveTargetQuat (t : String) (seg : List ℝ) (quat : Fin 4 → ℝ) :
    Fin 4 → ℝ :=
  if t = "pose_abs" then fun i => seg.getD (3 + (i : ℕ)) 0
  else if t = "pose_rel" then
    quat_mul (quat_from_angle_axis (fun i => seg.getD (3 + (i : ℕ)) 0)) quat
  else quat

/-- Modelled from the spec: the 6-vector task-space pose error of one
motion command type (position error on the linear axes; axis-angle
orientation error on the angular axes for the pose types, zero for the
position-only types). -/
def motionError (t : String) (seg : List ℝ) (pos : Fin 3 → ℝ)
    (quat : Fin 4 → ℝ) : Fin 6 → ℝ :=
  fun i =>
    if h : (i : ℕ) < 3 then
      resolveTargetPos t seg pos ⟨i, h⟩ - pos ⟨i, h⟩
    else if t = "pose_abs" ∨ t = "pose_rel" then
      quat_error_vec (resolveTargetQuat t seg quat) quat ⟨(i : ℕ) - 3, by omega⟩
    else 0

/-- Modelled from the spec: the motion-channel desired task-space
acceleration of one motion command type,
`kp ⊙ pose_error + kd ⊙ (−velocity)` (zero target velocity). -/
def motionAcc (kp kd : Fin 6 → ℝ) (t : String) (seg : List ℝ)
    (pos : Fin 3 → ℝ) (quat : Fin 4 → ℝ) (vel : Fin 6 → ℝ) : Fin 6 → ℝ :=
  fun i => kp i * motionError t seg pos quat i + kd i * (-vel i)

/-- The commanded wrench of a `wrench_abs` command segment. -/
def wrenchOfSeg (seg : List ℝ) : Fin 6 → ℝ :=
  fun i => seg.getD (i : ℕ) 0

/-- Modelled from the spec: the wrench-channel target.  Without a
configured `wrench_stiffness` the commanded wrench passes through
open-loop; with one, the three force axes receive the closed-loop
correction `wrench_stiffness ⊙ (commanded_force − measured_force)` while
the commanded torque passes through unmodified. -/
def closedLoopWrench (cfg : OperationalSpaceControllerCfg) (w : Fin 6 → ℝ)
    (force : Fin 3 → ℝ) : Fin 6 → ℝ :=
  match cfg.wrench_stiffness with
  | none => w
  | some ks => fun i =>
      if h : (i : ℕ) < 3 then w i + ks i * (w i - force ⟨i, h⟩) else w i

/-- Modelled from the spec: the (motion, wrench) task-space contribution of
one command-type entry; an unrecognised entry fails with
`UnsupportedCommandType`. -/
def targetContrib (cfg : OperationalSpaceControllerCfg) (kp kd : Fin 6 → ℝ)
    {n : ℕ} (inp : OpspaceIn n) (t : String) (seg : List ℝ) :
    Except OpspaceError ((Fin 6 → ℝ) × (Fin 6 → ℝ)) :=
  if t = "wrench_abs" then
    .ok (0, closedLoopWrench cfg (wrenchOfSeg seg) inp.ee_force)
  else if t = "pose_abs" ∨ t = "pose_rel" ∨ t = "position_abs" ∨
      t = "position_rel" then
    .ok (motionAcc kp kd t seg inp.ee_pos inp.ee_quat inp.ee_vel, 0)
  else .error .UnsupportedCommandType

/-- Modelled from the spec: walk the configured command-type list over the
flat command vector, splitting it into per-type segments and summing the
motion and wrench contributions. -/
def resolveTargets (cfg : OperationalSpaceControllerCfg) (kp kd : Fin 6 → ℝ)
    {n : ℕ} (inp : OpspaceIn n) :
    List String → List ℝ → Except OpspaceError ((Fin 6 → ℝ) × (Fin 6 → ℝ))
  | [], _ => .ok (0, 0)
  | t :: ts, cmd =>
    match targetContrib cfg kp kd inp t (cmd.take (targetWidth t)) with
    | .error e => .error e
    | .ok c =>
      match resolveTargets cfg kp kd inp ts (cmd.drop (targetWidth t)) with
      | .error e => .error e
      | .ok r => .ok (fun i => c.1 i + r.1 i, fun i => c.2 i + r.2 i)

/-- The motion-channel selection mask applied element-wise. -/
def maskedMotion (cfg : OperationalSpaceControllerCfg) (v : Fin 6 → ℝ) :
    Fin 6 → ℝ :=
  fun i => cfg.motion_control_axes i * v i

/-- The wrench-channel selection mask applied element-wise. -/
def maskedWrench (cfg : OperationalSpaceControllerCfg) (v : Fin 6 → ℝ) :
    Fin 6 → ℝ :=
  fun i => cfg.wrench_control_axes i * v i

/-- Modelled from the spec: the Error-and-Selection-Engine output
`F_desired`, the combination of the masked motion and wrench channels. -/
def desiredWrench (cfg : OperationalSpaceControllerCfg) (acc wr : Fin 6 → ℝ) :
    Fin 6 → ℝ :=
  fun i => maskedMotion cfg acc i + maskedWrench cfg wr i

/-- Modelled from the spec: the operational-space inertia matrix
`(J · M⁻¹ · Jᵀ)⁻¹`. -/
def opSpaceMassMatrix {n : ℕ} (J : Matrix (Fin 6) (Fin n) ℝ)
    (M : Matrix (Fin n) (Fin n) ℝ) : Matrix (Fin 6) (Fin 6) ℝ :=
  (J * M⁻¹ * J.transpose)⁻¹

/-- The linear-axis (first three rows) block of the Jacobian. -/
def jacPosBlock {n : ℕ} (J : Matrix (Fin 6) (Fin n) ℝ) :
    Matrix (Fin 3) (Fin n) ℝ :=
  Matrix.of fun i j => J ⟨(i : ℕ), by omega⟩ j

/-- The angular-axis (last three rows) block of the Jacobian. -/
def jacOriBlock {n : ℕ} (J : Matrix (Fin 6) (Fin n) ℝ) :
    Matrix (Fin 3) (Fin n) ℝ :=
  Matrix.of fun i j => J ⟨(i : ℕ) + 3, by omega⟩ j

/-- Modelled from the spec: the decoupled (`uncouple_motion_wrench`)
operational-space weighting, applying separate force-axis and torque-axis
operational-space inertia blocks to the masked motion contribution. -/
def decoupledMotionWrench {n : ℕ} (J : Matrix (Fin 6) (Fin n) ℝ)
    (M : Matrix (Fin n) (Fin n) ℝ) (v : Fin 6 → ℝ) : Fin 6 → ℝ :=
  let Lp := (jacPosBlock J * M⁻¹ * (jacPosBlock J).transpose)⁻¹
  let Lo := (jacOriBlock J * M⁻¹ * (jacOriBlock J).transpose)⁻¹
  fun i =>
    if h : (i : ℕ) < 3 then
      Lp.mulVec (fun k => v ⟨(k : ℕ), by omega⟩) ⟨i, h⟩
    else
      Lo.mulVec (fun k => v ⟨(k : ℕ) + 3, by omega⟩) ⟨(i : ℕ) - 3, by omega⟩

/-- Modelled from the spec: the Dynamics-Compensation-Engine weighting of
the masked motion contribution: with inertial compensation the
operational-space inertia (full, or split per channel when motion and
wrench are uncoupled) is applied; without it the manipulator is treated as
unit-mass in task space. -/
def motionWrenchMapped (cfg : OperationalSpaceControllerCfg) {n : ℕ}
    (J : Matrix (Fin 6) (Fin n) ℝ) (M : Matrix (Fin n) (Fin n) ℝ)
    (accMasked : Fin 6 → ℝ) : Fin 6 → ℝ :=
  if cfg.inertial_compensation then
    if cfg.uncouple_motion_wrench then decoupledMotionWrench J M accMasked
    else (opSpaceMassMatrix J M).mulVec accMasked
  else accMasked

/-- Modelled from the spec: the combined desired task-space wrench that the
dynamics engine maps through the Jacobian transpose — the weighted masked
motion contribution plus the masked wrench contribution. -/
def combinedWrench (cfg : OperationalSpaceControllerCfg) {n : ℕ}
    (J : Matrix (Fin 6) (Fin n) ℝ) (M : Matrix (Fin n) (Fin n) ℝ)
    (acc wr : Fin 6 → ℝ) : Fin 6 → ℝ :=
  fun i =>
    motionWrenchMapped cfg J M (maskedMotion cfg acc) i + maskedWrench cfg wr i

/-- Modelled from the spec: joint efforts `τ = Jᵀ · combined_wrench`, plus
the supplied gravity torque vector exactly when gravity compensation is
enabled. -/
def jointEfforts (cfg : OperationalSpaceControllerCfg) {n : ℕ}
    (inp : OpspaceIn n) (acc wr : Fin 6 → ℝ) : Fin n → ℝ :=
  fun j =>
    (inp.jacobian.transpose).mulVec
      (combinedWrench cfg inp.jacobian inp.mass_matrix acc wr) j
    + (if cfg.gravity_compensation then inp.gravity j else 0)

/-- Modelled from the spec: the per-environment `compute` operation of the
missing `operational_space.py`: after checking the impedance mode, run the
gain scheduler, resolve the stored command's target segments against the
live snapshot, and map the combined desired wrench to joint torques. -/
def compute (cfg : OperationalSpaceControllerCfg) {n : ℕ} (command : List ℝ)
    (inp : OpspaceIn n) : Except OpspaceError (Fin n → ℝ) :=
  if cfg.impedance_mode ∈ validImpedanceModes then
    match resolveTargets cfg
        (pGains cfg (command.drop (targetsWidth cfg.target_types)))
        (dGains cfg (command.drop (targetsWidth cfg.target_types)))
        inp cfg.target_types command with
    | .error e => .error e
    | .ok p => .ok (jointEfforts cfg inp p.1 p.2)
  else .error .ConfigurationError

/-- Modelled from the spec: batched `compute`, every environment computed
from its own stored command and snapshot with no cross-environment
interaction. -/
def batch_compute (cfg : OperationalSpaceControllerCfg) {numEnvs n : ℕ}
    (store : Fin numEnvs → List ℝ) (inp : Fin numEnvs → OpspaceIn n) :
    Fin numEnvs → Except OpspaceError (Fin n → ℝ) :=
  fun e => compute cfg (store e) (inp e)

/-- A trivial one-joint kinematic/dynamic snapshot, used to instantiate
batched statements at a concrete input. -/
def trivialIn : OpspaceIn 1 :=
  { jacobian := 0, ee_pos := 0, ee_quat := ![1, 0, 0, 0], ee_vel := 0,
    ee_force := 0, mass_matrix := 0, gravity := 0 }

lemma listGetD_drop (l : List ℝ) (n i : ℕ) :
    (l.drop n).getD i 0 = l.getD (n + i) 0 := by
  induction l generalizing n with
  | nil => simp [List.getD]
  | cons a l ih =>
    cases n with
    | zero => simp
    | succ m =>
      have h : m + 1 + i = (m + i) + 1 := by omega
      rw [h]
      simpa using ih m

lemma listGetD_take (l : List ℝ) (n i : ℕ) (h : i < n) :
    (l.take n).getD i 0 = l.getD i 0 := by
  induction l generalizing n i with
  | nil => simp
  | cons a l ih =>
    cases n with
    | zero => omega
    | succ m =>
      cases i with
      | zero => simp
      | succ k =>
        have hk : k < m := by omega
        simpa using ih m k hk

lemma listGetD_replicate_zero (k j : ℕ) :
    (List.replicate k (0 : ℝ)).getD j 0 = 0 := by
  induction k generalizing j with
  | zero => simp [List.getD]
  | succ m ih =>
    cases j with
    | zero => simp
    | succ i => simpa using ih i

/-- C1: for every impedance mode (fixed, variable, variable_kp) and for
every effective proportional gain kp > 0 and damping ratio ≥ 0 produced by
the gain scheduler, the derivative gain satisfies
kd = 2 * sqrt(kp) * damping_ratio, element-wise over the 6 control axes. -/
theorem C1_gain_formula (cfg : OperationalSpaceControllerCfg)
    (gainCmd : List ℝ) (i : Fin 6)
    (hmode : cfg.impedance_mode ∈ validImpedanceModes)
    (hkp : 0 < pGains cfg gainCmd i)
    (hdr : 0 ≤ dampingRatiosOf cfg gainCmd i) :
    dGains cfg gainCmd i =
      2 * Real.sqrt (pGains cfg gainCmd i) * dampingRatiosOf cfg gainCmd i :=
  rfl

/-- Witness for C1 at the default (fixed-mode) configuration. -/
theorem C1_gain_formula_witness :
    0 < pGains { target_types := ["pose_abs"] } [] 0 ∧
    0 ≤ dampingRatiosOf { target_types := ["pose_abs"] } [] 0 ∧
    dGains { target_types := ["pose_abs"] } [] 0 =
      2 * Real.sqrt (pGains { target_types := ["pose_abs"] } [] 0) *
        dampingRatiosOf { target_types := ["pose_abs"] } [] 0 := by
  have hkp : (0 : ℝ) < pGains { target_types := ["pose_abs"] } [] 0 := by
    unfold pGains
    rw [if_neg (by decide)]
    norm_num
  have hdr : (0 : ℝ) ≤ dampingRatiosOf { target_types := ["pose_abs"] } [] 0 := by
    unfold dampingRatiosOf
    rw [if_neg (by decide)]
    norm_num
  exact ⟨hkp, hdr, C1_gain_formula _ [] 0 (by decide) hkp hdr⟩

/-- C5 counterexample: a configuration with a single `pose_rel` target has
`action_dim = 6` (position delta + axis-angle delta), not the 7 the claim's
width table assigns to every pose command; a 7-wide command vector is
rejected and a 6-wide one is stored verbatim. -/
theorem C5_counterexample :
    action_dim { target_types := ["pose_rel"] } = 6 ∧
    set_command { target_types := ["pose_rel"] } (List.replicate 7 0) [] =
      .error .InvalidCommandShape ∧
    set_command { target_types := ["pose_rel"] } (List.replicate 6 0) [] =
      .ok (List.replicate 6 0) := by
  refine ⟨by decide, ?_, ?_⟩
  · unfold set_command
    rw [if_neg (by decide)]
  · unfold set_command
    rw [if_pos (by decide)]

/-- C5 (amended): action_dim is the sum of per-command-type widths (7 for
pose_abs, 6 for pose_rel, 3 for position_abs and position_rel, 6 for
wrench_abs) plus 6 gain elements for variable_kp or 12 for variable mode;
set_command succeeds and stores the command vector verbatim exactly when
the vector's width equals action_dim, and fails with InvalidCommandShape
otherwise. -/
theorem C5_command_shape (cfg : OperationalSpaceControllerCfg)
    (command ee_pose : List ℝ) :
    (set_command cfg command ee_pose = .ok command ↔
      command.length = action_dim cfg) ∧
    (command.length ≠ action_dim cfg →
      set_command cfg command ee_pose = .error .InvalidCommandShape) ∧
    targetWidth "pose_abs" = 7 ∧ targetWidth "pose_rel" = 6 ∧
    targetWidth "position_abs" = 3 ∧ targetWidth "position_rel" = 3 ∧
    targetWidth "wrench_abs" = 6 ∧
    (cfg.impedance_mode = "variable_kp" → gainCommandDim cfg = 6) ∧
    (cfg.impedance_mode = "variable" → gainCommandDim cfg = 12) ∧
    (cfg.impedance_mode = "fixed" → gainCommandDim cfg = 0) ∧
    action_dim cfg = targetsWidth cfg.target_types + gainCommandDim cfg := by
  refine ⟨?_, ?_, by decide, by decide, by decide, by decide, by decide,
    ?_, ?_, ?_, rfl⟩
  · unfold set_command
    constructor
    · intro h
      by_contra hne
      rw [if_neg hne] at h
      exact absurd h (by simp)
    · intro h
      rw [if_pos h]
  · intro h
    unfold set_command
    rw [if_neg h]
  · intro h
    unfold gainCommandDim
    rw [if_pos h]
  · intro h
    unfold gainCommandDim
    rw [if_neg (by rw [h]; decide), if_pos h]
  · intro h
    unfold gainCommandDim
    rw [if_neg (by rw [h]; decide), if_neg (by rw [h]; decide)]

/-- Witness for C5 at a variable_kp pose configuration: a 13-wide command
(7 pose + 6 gains) is accepted verbatim, a 5-wide one is rejected. -/
theorem C5_command_shape_witness :
    set_command
      { target_types := ["pose_abs"], impedance_mode := "variable_kp" }
      (List.replicate 13 0) [] = .ok (List.replicate 13 0) ∧
    set_command
      { target_types := ["pose_abs"], impedance_mode := "variable_kp" }
      (List.replicate 5 0) [] = .error .InvalidCommandShape := by
  constructor
  · exact (C5_command_shape _ _ []).1.mpr (by decide)
  · exact (C5_command_shape _ _ []).2.1 (by decide)

/-- C3: with no wrench_stiffness configured the commanded wrench of a
`wrench_abs` target passes into the wrench channel exactly, for every
measured force; with wrench_stiffness configured, the three force axes gain
the closed-loop correction `wrench_stiffness ⊙ (commanded − measured)`
while the commanded torque passes through unmodified, and this
closed-loop wrench is exactly the wrench contribution resolved from a
`wrench_abs` command. -/
theorem C3_wrench_channel (cfg : OperationalSpaceControllerCfg)
    (kp kd : Fin 6 → ℝ) {n : ℕ} (inp : OpspaceIn n) (cmd : List ℝ)
    (w : Fin 6 → ℝ) :
    (cfg.wrench_stiffness = none → closedLoopWrench cfg w inp.ee_force = w) ∧
    (∀ ks, cfg.wrench_stiffness = some ks → ∀ i : Fin 6,
      (∀ h : (i : ℕ) < 3,
        closedLoopWrench cfg w inp.ee_force i =
          w i + ks i * (w i - inp.ee_force ⟨i, h⟩)) ∧
      (3 ≤ (i : ℕ) → closedLoopWrench cfg w inp.ee_force i = w i)) ∧
    resolveTargets cfg kp kd inp ["wrench_abs"] cmd =
      .ok (0, fun i =>
        closedLoopWrench cfg (wrenchOfSeg (cmd.take 6)) inp.ee_force i) := by
  refine ⟨?_, ?_, ?_⟩
  · intro h
    unfold closedLoopWrench
    rw [h]
  · intro ks hks i
    unfold closedLoopWrench
    rw [hks]
    constructor
    · intro h
      simp only [dif_pos h]
    · intro h
      have h3 : ¬ ((i : ℕ) < 3) := by omega
      simp only [dif_neg h3]
  · have hw : targetContrib cfg kp kd inp "wrench_abs" (List.take 6 cmd) =
        Except.ok ((0 : Fin 6 → ℝ), closedLoopWrench cfg
          (wrenchOfSeg (List.take 6 cmd)) inp.ee_force) := by
      unfold targetContrib
      rw [if_pos rfl]
    have h6 : targetWidth "wrench_abs" = 6 := by decide
    simp only [resolveTargets, h6, hw]
    exact congrArg Except.ok (Prod.ext_iff.mpr
      ⟨by funext i; simp, by funext i; simp⟩)

/-- Witness for C3: open-loop and closed-loop evaluation at a concrete
configuration, command and measured force. -/
theorem C3_wrench_channel_witness :
    closedLoopWrench { target_types := ["wrench_abs"] }
      (fun _ => 10) trivialIn.ee_force = (fun _ => 10) ∧
    closedLoopWrench
      { target_types := ["wrench_abs"], wrench_stiffness := some fun _ => 2 }
      (fun _ => 10) trivialIn.ee_force 0 =
      10 + 2 * (10 - trivialIn.ee_force 0) ∧
    closedLoopWrench
      { target_types := ["wrench_abs"], wrench_stiffness := some fun _ => 2 }
      (fun _ => 10) trivialIn.ee_force 3 = 10 := by
  refine ⟨(C3_wrench_channel _ 0 0 trivialIn [] _).1 rfl, ?_, ?_⟩
  · exact ((C3_wrench_channel _ 0 0 trivialIn [] (fun _ => 10)).2.1
      (fun _ => 2) rfl 0).1 (by decide)
  · exact ((C3_wrench_channel _ 0 0 trivialIn [] (fun _ => 10)).2.1
      (fun _ => 2) rfl 3).2 (by decide)

/-- C4: set_command stores the command verbatim whatever current pose is
supplied alongside it, and a relative command's absolute target is resolved
by composing the stored delta onto the end-effector position that is live
at the compute call; two compute-time poses with different positions hence
yield two different absolute targets for the same stored command. -/
theorem C4_relative_live_pose (cfg : OperationalSpaceControllerCfg)
    (command p1 p2 seg : List ℝ) (t : String)
    (ht : t = "pose_rel" ∨ t = "position_rel")
    (pos1 pos2 : Fin 3 → ℝ) (quat : Fin 4 → ℝ) (hne : pos1 ≠ pos2) :
    set_command cfg command p1 = set_command cfg command p2 ∧
    resolveTargetPos t seg pos1 = (fun i => pos1 i + seg.getD (i : ℕ) 0) ∧
    (∀ (i : Fin 6) (h3 : (i : ℕ) < 3),
      motionError t seg pos1 quat i =
        resolveTargetPos t seg pos1 ⟨(i : ℕ), h3⟩ - pos1 ⟨(i : ℕ), h3⟩) ∧
    resolveTargetPos t seg pos1 ≠ resolveTargetPos t seg pos2 := by
  have habs : ∀ pos : Fin 3 → ℝ,
      resolveTargetPos t seg pos = fun i => pos i + seg.getD (i : ℕ) 0 := by
    intro pos
    unfold resolveTargetPos
    rw [if_pos ht]
  refine ⟨rfl, habs pos1, ?_, ?_⟩
  · intro i h3
    unfold motionError
    rw [dif_pos h3]
  · rw [habs pos1, habs pos2]
    intro h
    apply hne
    funext i
    have := congrFun h i
    exact add_right_cancel this

/-- Witness for C4 with a position_rel delta of one unit along x and two
distinct live positions. -/
theorem C4_relative_live_pose_witness :
    set_command { target_types := ["position_rel"] } [(1 : ℝ), 0, 0] [] =
      set_command { target_types := ["position_rel"] } [(1 : ℝ), 0, 0] [9] ∧
    resolveTargetPos "position_rel" [(1 : ℝ), 0, 0] (fun _ => 0) =
      (fun i : Fin 3 => (fun _ => (0 : ℝ)) i + [(1 : ℝ), 0, 0].getD (i : ℕ) 0) ∧
    motionError "position_rel" [(1 : ℝ), 0, 0] (fun _ => 0) ![1, 0, 0, 0] 0 =
      resolveTargetPos "position_rel" [(1 : ℝ), 0, 0] (fun _ => 0)
        ⟨((0 : Fin 6) : ℕ), by decide⟩ -
      (fun _ => (0 : ℝ)) ((⟨((0 : Fin 6) : ℕ), by decide⟩ : Fin 3)) ∧
    resolveTargetPos "position_rel" [(1 : ℝ), 0, 0] (fun _ => 0) ≠
      resolveTargetPos "position_rel" [(1 : ℝ), 0, 0] (fun _ => 1) := by
  obtain ⟨h1, h2, h3, h4⟩ := C4_relative_live_pose
    { target_types := ["position_rel"] }
    [(1 : ℝ), 0, 0] [] [9] [(1 : ℝ), 0, 0] "position_rel" (Or.inr rfl)
    (fun _ => 0) (fun _ => 1) ![1, 0, 0, 0]
    (by
      intro h
      have := congrFun h 0
      norm_num at this)
  exact ⟨h1, h2, h3 0 (by decide), h4⟩

/-- C8: reset zeroes the stored command of exactly the selected
environments (all of them when no subset is given) and leaves every other
environment's stored command unchanged, so a subsequent compute for the
untouched environments returns the same result as without the reset. -/
theorem C8_reset_isolates (cfg : OperationalSpaceControllerCfg)
    {numEnvs n : ℕ} (store : Fin numEnvs → List ℝ)
    (ids : List (Fin numEnvs)) (inp : Fin numEnvs → OpspaceIn n) :
    (∀ e ∈ ids, reset cfg store (some ids) e = zero_command cfg) ∧
    (∀ e, e ∉ ids → reset cfg store (some ids) e = store e) ∧
    (∀ e, reset cfg store none e = zero_command cfg) ∧
    (∀ e, e ∉ ids →
      batch_compute cfg (reset cfg store (some ids)) inp e =
        batch_compute cfg store inp e) := by
  have hin : ∀ e ∈ ids, reset cfg store (some ids) e = zero_command cfg := by
    intro e he
    show (if e ∈ ids then zero_command cfg else store e) = zero_command cfg
    rw [if_pos he]
  have hout : ∀ e, e ∉ ids → reset cfg store (some ids) e = store e := by
    intro e he
    show (if e ∈ ids then zero_command cfg else store e) = store e
    rw [if_neg he]
  refine ⟨hin, hout, fun e => rfl, ?_⟩
  intro e he
  unfold batch_compute
  rw [hout e he]

/-- Witness for C8 on a four-environment batch with only environment 2
reset. -/
theorem C8_reset_isolates_witness :
    reset { target_types := ["pose_abs"] }
      (fun _ => [(1 : ℝ)] : Fin 4 → List ℝ)
      (some [(2 : Fin 4)]) 2 = zero_command { target_types := ["pose_abs"] } ∧
    reset { target_types := ["pose_abs"] }
      (fun _ => [(1 : ℝ)] : Fin 4 → List ℝ)
      (some [(2 : Fin 4)]) 3 = [(1 : ℝ)] ∧
    batch_compute { target_types := ["pose_abs"] }
      (reset { target_types := ["pose_abs"] }
        (fun _ => [(1 : ℝ)] : Fin 4 → List ℝ)
        (some [(2 : Fin 4)]))
      (fun _ => trivialIn) 3 =
      batch_compute { target_types := ["pose_abs"] }
        (fun _ => [(1 : ℝ)] : Fin 4 → List ℝ)
        (fun _ => trivialIn) 3 := by
  obtain ⟨h1, h2, _, h4⟩ := C8_reset_isolates
    { target_types := ["pose_abs"] }
    (fun _ => [(1 : ℝ)] : Fin 4 → List ℝ) [(2 : Fin 4)]
    (fun _ => trivialIn)
  exact ⟨h1 2 (by decide), h2 3 (by decide), h4 3 (by decide)⟩

lemma targetContrib_ok_of_supported (cfg : OperationalSpaceControllerCfg)
    (kp kd : Fin 6 → ℝ) {n : ℕ} (inp : OpspaceIn n) (t : String) (seg : List ℝ)
    (ht : t ∈ supportedTargetTypes) :
    ∃ c, targetContrib cfg kp kd inp t seg = .ok c := by
  have ht' : t = "pose_abs" ∨ t = "pose_rel" ∨ t = "position_abs" ∨
      t = "position_rel" ∨ t = "wrench_abs" := by
    simpa [supportedTargetTypes] using ht
  unfold targetContrib
  rcases ht' with rfl | rfl | rfl | rfl | rfl
  · rw [if_neg (by decide), if_pos (by decide)]
    exact ⟨_, rfl⟩
  · rw [if_neg (by decide), if_pos (by decide)]
    exact ⟨_, rfl⟩
  · rw [if_neg (by decide), if_pos (by decide)]
    exact ⟨_, rfl⟩
  · rw [if_neg (by decide), if_pos (by decide)]
    exact ⟨_, rfl⟩
  · rw [if_pos rfl]
    exact ⟨_, rfl⟩

lemma targetContrib_error_of_unsupported (cfg : OperationalSpaceControllerCfg)
    (kp kd : Fin 6 → ℝ) {n : ℕ} (inp : OpspaceIn n) (t : String) (seg : List ℝ)
    (ht : t ∉ supportedTargetTypes) :
    targetContrib cfg kp kd inp t seg = .error .UnsupportedCommandType := by
  have ht' : ¬ (t = "pose_abs" ∨ t = "pose_rel" ∨ t = "position_abs" ∨
      t = "position_rel" ∨ t = "wrench_abs") := by
    intro h
    exact ht (by simpa [supportedTargetTypes] using h)
  unfold targetContrib
  rw [if_neg (by tauto), if_neg (by tauto)]

lemma resolveTargets_ok_of_supported (cfg : OperationalSpaceControllerCfg)
    (kp kd : Fin 6 → ℝ) {n : ℕ} (inp : OpspaceIn n) :
    ∀ (ts : List String) (cmd : List ℝ),
      (∀ t ∈ ts, t ∈ supportedTargetTypes) →
      ∃ p, resolveTargets cfg kp kd inp ts cmd = .ok p := by
  intro ts
  induction ts with
  | nil => exact fun cmd _ => ⟨(0, 0), rfl⟩
  | cons t ts ih =>
    intro cmd hall
    obtain ⟨c, hc⟩ := targetContrib_ok_of_supported cfg kp kd inp t
      (cmd.take (targetWidth t)) (hall t (by simp))
    obtain ⟨p, hp⟩ := ih (cmd.drop (targetWidth t))
      (fun u hu => hall u (by simp [hu]))
    exact ⟨(fun i => c.1 i + p.1 i, fun i => c.2 i + p.2 i),
      by simp only [resolveTargets, hc, hp]⟩

lemma resolveTargets_error_of_unsupported (cfg : OperationalSpaceControllerCfg)
    (kp kd : Fin 6 → ℝ) {n : ℕ} (inp : OpspaceIn n) :
    ∀ (ts : List String) (cmd : List ℝ),
      (∃ t ∈ ts, t ∉ supportedTargetTypes) →
      resolveTargets cfg kp kd inp ts cmd = .error .UnsupportedCommandType := by
  intro ts
  induction ts with
  | nil =>
    rintro cmd ⟨t, ht, _⟩
    exact absurd ht (by simp)
  | cons t ts ih =>
    rintro cmd ⟨u, hu, hunsup⟩
    rcases List.mem_cons.mp hu with rfl | humem
    · simp only [resolveTargets,
        targetContrib_error_of_unsupported cfg kp kd inp u _ hunsup]
    · by_cases hts : t ∈ supportedTargetTypes
      · obtain ⟨c, hc⟩ := targetContrib_ok_of_supported cfg kp kd inp t
          (cmd.take (targetWidth t)) hts
        simp only [resolveTargets, hc,
          ih (cmd.drop (targetWidth t)) ⟨u, humem, hunsup⟩]
      · simp only [resolveTargets,
          targetContrib_error_of_unsupported cfg kp kd inp t _ hts]

/-- C6: the valid command types are exactly pose_abs, pose_rel,
position_abs, position_rel and wrench_abs; a configuration whose type list
contains an entry outside this set fails at compute time with
UnsupportedCommandType, and a configuration drawn entirely from this set
(including the position types) never raises that error — compute
succeeds. -/
theorem C6_command_types (cfg : OperationalSpaceControllerCfg) {n : ℕ}
    (inp : OpspaceIn n) (command : List ℝ)
    (hmode : cfg.impedance_mode ∈ validImpedanceModes) :
    ((∀ t ∈ cfg.target_types, t ∈ supportedTargetTypes) →
      ∃ tau, compute cfg command inp = .ok tau) ∧
    ((∃ t ∈ cfg.target_types, t ∉ supportedTargetTypes) →
      compute cfg command inp = .error .UnsupportedCommandType) := by
  constructor
  · intro hall
    obtain ⟨p, hp⟩ := resolveTargets_ok_of_supported cfg
      (pGains cfg (command.drop (targetsWidth cfg.target_types)))
      (dGains cfg (command.drop (targetsWidth cfg.target_types)))
      inp cfg.target_types command hall
    refine ⟨jointEfforts cfg inp p.1 p.2, ?_⟩
    unfold compute
    rw [if_pos hmode, hp]
  · intro hbad
    unfold compute
    rw [if_pos hmode, resolveTargets_error_of_unsupported cfg _ _ inp
      cfg.target_types command hbad]

/-- Witness for C6: a configuration using all five supported types
computes successfully; one with a bogus entry fails with
UnsupportedCommandType. -/
theorem C6_command_types_witness :
    (∃ tau, compute { target_types := ["pose_abs", "pose_rel",
      "position_abs", "position_rel", "wrench_abs"] }
      (List.replicate 25 0) trivialIn = .ok tau) ∧
    compute { target_types := ["pose_abs", "foo_bar"] }
      (List.replicate 13 0) trivialIn = .error .UnsupportedCommandType := by
  constructor
  · exact (C6_command_types _ trivialIn _ (by decide)).1 (by decide)
  · exact (C6_command_types _ trivialIn _ (by decide)).2
      ⟨"foo_bar", by decide, by decide⟩

/-- C2 (amended): with uncouple_motion_wrench = False and
inertial_compensation = False, compute returns τ = Jᵀ · F_desired (the
Jacobian transpose applied to the Error-and-Selection-Engine output), and
the externally supplied gravity torque vector is added to τ exactly when
gravity_compensation is True.  (With inertial compensation enabled the
motion channel is first weighted by the operational-space inertia; see the
C2 counterexample.) -/
theorem C2_torque_mapping (cfg : OperationalSpaceControllerCfg) {n : ℕ}
    (command : List ℝ) (inp : OpspaceIn n)
    (hmode : cfg.impedance_mode ∈ validImpedanceModes)
    (hsup : ∀ t ∈ cfg.target_types, t ∈ supportedTargetTypes)
    (hunc : cfg.uncouple_motion_wrench = false)
    (hinert : cfg.inertial_compensation = false) :
    ∃ acc wr,
      resolveTargets cfg
        (pGains cfg (command.drop (targetsWidth cfg.target_types)))
        (dGains cfg (command.drop (targetsWidth cfg.target_types)))
        inp cfg.target_types command = .ok (acc, wr) ∧
      compute cfg command inp = .ok (fun j =>
        (inp.jacobian.transpose).mulVec (desiredWrench cfg acc wr) j +
        (if cfg.gravity_compensation then inp.gravity j else 0)) := by
  obtain ⟨p, hp⟩ := resolveTargets_ok_of_supported cfg
    (pGains cfg (command.drop (targetsWidth cfg.target_types)))
    (dGains cfg (command.drop (targetsWidth cfg.target_types)))
    inp cfg.target_types command hsup
  refine ⟨p.1, p.2, ?_, ?_⟩
  · rw [Prod.mk.eta]
    exact hp
  · unfold compute
    rw [if_pos hmode, hp]
    refine congrArg Except.ok ?_
    funext j
    unfold jointEfforts
    have hcw : combinedWrench cfg inp.jacobian inp.mass_matrix p.1 p.2 =
        desiredWrench cfg p.1 p.2 := by
      funext i
      unfold combinedWrench desiredWrench motionWrenchMapped
      rw [hinert]
      simp
    rw [hcw]

/-- A pure position_abs configuration used as a concrete instance. -/
def cfgPosAbs : OperationalSpaceControllerCfg :=
  { target_types := ["position_abs"] }

/-- Witness for C2 at a position_abs configuration with a trivial
snapshot. -/
theorem C2_torque_mapping_witness :
    ∃ acc wr,
      resolveTargets cfgPosAbs
        (pGains cfgPosAbs
          (List.drop (targetsWidth cfgPosAbs.target_types) [(1 : ℝ), 0, 0]))
        (dGains cfgPosAbs
          (List.drop (targetsWidth cfgPosAbs.target_types) [(1 : ℝ), 0, 0]))
        trivialIn cfgPosAbs.target_types [(1 : ℝ), 0, 0] = .ok (acc, wr) ∧
      compute cfgPosAbs [(1 : ℝ), 0, 0] trivialIn = .ok (fun j =>
        (trivialIn.jacobian.transpose).mulVec (desiredWrench cfgPosAbs acc wr) j +
        (if cfgPosAbs.gravity_compensation then trivialIn.gravity j else 0)) :=
  C2_torque_mapping cfgPosAbs [(1 : ℝ), 0, 0] trivialIn (by decide) (by decide)
    rfl rfl

/-- Concrete configuration for the C2 counterexample: position control
with inertial compensation enabled and no uncoupling. -/
def cexCfg : OperationalSpaceControllerCfg :=
  { target_types := ["position_abs"], inertial_compensation := true }

/-- Concrete snapshot for the C2 counterexample: six joints, Jacobian
twice the identity, identity mass matrix, robot at the origin at rest. -/
def cexIn : OpspaceIn 6 :=
  { jacobian := (2 : ℝ) • 1, ee_pos := 0, ee_quat := ![1, 0, 0, 0],
    ee_vel := 0, ee_force := 0, mass_matrix := 1, gravity := 0 }

/-- Concrete command for the C2 counterexample: target position one unit
along x. -/
def cexCmd : List ℝ := [1, 0, 0]

/-- The motion channel resolved from `cexCmd` at `cexIn`. -/
def cexAcc : Fin 6 → ℝ := fun i =>
  motionAcc (pGains cexCfg []) (dGains cexCfg []) "position_abs" cexCmd
    cexIn.ee_pos cexIn.ee_quat cexIn.ee_vel i + (0 : Fin 6 → ℝ) i

/-- The (empty) wrench channel resolved from `cexCmd`. -/
def cexWr : Fin 6 → ℝ := fun i => (0 : Fin 6 → ℝ) i + (0 : Fin 6 → ℝ) i

/-- C2 counterexample: with uncouple_motion_wrench = False but inertial
compensation enabled, compute does not return Jᵀ·F_desired: at a Jacobian
of twice the identity and an identity mass matrix, joint 0 receives
Jᵀ·Λ·F_motion = 50 while the claimed Jᵀ·F_desired is 200. -/
theorem C2_counterexample :
    resolveTargets cexCfg
      (pGains cexCfg (List.drop (targetsWidth cexCfg.target_types) cexCmd))
      (dGains cexCfg (List.drop (targetsWidth cexCfg.target_types) cexCmd))
      cexIn cexCfg.target_types cexCmd = .ok (cexAcc, cexWr) ∧
    compute cexCfg cexCmd cexIn ≠ .ok (fun j =>
      (cexIn.jacobian.transpose).mulVec (desiredWrench cexCfg cexAcc cexWr) j +
      (if cexCfg.gravity_compensation then cexIn.gravity j else 0)) := by
  have hres : resolveTargets cexCfg
      (pGains cexCfg (List.drop (targetsWidth cexCfg.target_types) cexCmd))
      (dGains cexCfg (List.drop (targetsWidth cexCfg.target_types) cexCmd))
      cexIn cexCfg.target_types cexCmd = .ok (cexAcc, cexWr) := by
    show resolveTargets cexCfg (pGains cexCfg []) (dGains cexCfg [])
      cexIn ["position_abs"] cexCmd = .ok (cexAcc, cexWr)
    have hc : targetContrib cexCfg (pGains cexCfg []) (dGains cexCfg [])
        cexIn "position_abs" (List.take (targetWidth "position_abs") cexCmd) =
        Except.ok (motionAcc (pGains cexCfg []) (dGains cexCfg [])
          "position_abs" (List.take (targetWidth "position_abs") cexCmd)
          cexIn.ee_pos cexIn.ee_quat cexIn.ee_vel, (0 : Fin 6 → ℝ)) := by
      unfold targetContrib
      rw [if_neg (by decide), if_pos (by decide)]
    simp only [resolveTargets, hc]
    rfl
  have hcomp : compute cexCfg cexCmd cexIn =
      .ok (jointEfforts cexCfg cexIn cexAcc cexWr) := by
    unfold compute
    rw [if_pos (by decide), hres]
  have hJ : cexIn.jacobian = (2 : ℝ) • 1 := rfl
  have hM : cexIn.mass_matrix = 1 := rfl
  have hmulJt : ∀ v : Fin 6 → ℝ,
      (cexIn.jacobian.transpose).mulVec v = fun i => 2 * v i := by
    intro v
    rw [hJ, Matrix.transpose_smul, Matrix.transpose_one,
      Matrix.smul_mulVec_assoc, Matrix.one_mulVec]
    funext i
    simp
  have hos : opSpaceMassMatrix cexIn.jacobian cexIn.mass_matrix =
      (4⁻¹ : ℝ) • 1 := by
    unfold opSpaceMassMatrix
    rw [hJ, hM, inv_one, mul_one, Matrix.transpose_smul, Matrix.transpose_one]
    have h4 : ((2 : ℝ) • (1 : Matrix (Fin 6) (Fin 6) ℝ)) *
        ((2 : ℝ) • (1 : Matrix (Fin 6) (Fin 6) ℝ)) =
        (4 : ℝ) • (1 : Matrix (Fin 6) (Fin 6) ℝ) := by
      rw [smul_mul_assoc, mul_smul_comm, smul_smul, mul_one]
      norm_num
    rw [h4]
    apply Matrix.inv_eq_right_inv
    rw [smul_mul_assoc, mul_smul_comm, smul_smul, mul_one]
    norm_num
  have hacc : cexAcc 0 = 100 := by
    have hp : pGains cexCfg [] 0 = 100 := by
      unfold pGains
      rw [if_neg (by decide)]
      rfl
    have h0 : ((0 : Fin 6) : ℕ) < 3 := by decide
    have herr : motionError "position_abs" cexCmd cexIn.ee_pos cexIn.ee_quat 0
        = 1 := by
      have h1 : motionError "position_abs" cexCmd cexIn.ee_pos cexIn.ee_quat 0
          = resolveTargetPos "position_abs" cexCmd cexIn.ee_pos
              ⟨(0 : Fin 6), h0⟩ - cexIn.ee_pos ⟨(0 : Fin 6), h0⟩ := by
        unfold motionError
        rw [dif_pos h0]
      rw [h1]
      unfold resolveTargetPos
      rw [if_neg (by decide)]
      show cexCmd.getD 0 0 - cexIn.ee_pos ⟨0, h0⟩ = 1
      norm_num [cexCmd, cexIn]
    show pGains cexCfg [] 0 *
        motionError "position_abs" cexCmd cexIn.ee_pos cexIn.ee_quat 0 +
      dGains cexCfg [] 0 * (-(cexIn.ee_vel 0)) + (0 : Fin 6 → ℝ) 0 = 100
    rw [hp, herr, show cexIn.ee_vel 0 = (0 : ℝ) from rfl]
    norm_num
  have hcombined : combinedWrench cexCfg cexIn.jacobian cexIn.mass_matrix
      cexAcc cexWr 0 = 25 := by
    unfold combinedWrench motionWrenchMapped maskedMotion maskedWrench
    rw [show cexCfg.inertial_compensation = true from rfl,
      show cexCfg.uncouple_motion_wrench = false from rfl]
    simp only [if_true, Bool.false_eq_true, if_false, hos,
      Matrix.smul_mulVec_assoc, Matrix.one_mulVec]
    show 4⁻¹ * (cexCfg.motion_control_axes 0 * cexAcc 0) +
      cexCfg.wrench_control_axes 0 * cexWr 0 = 25
    rw [show cexCfg.motion_control_axes 0 = 1 from rfl,
      show cexCfg.wrench_control_axes 0 = 0 from rfl, hacc]
    norm_num
  have hlhs : jointEfforts cexCfg cexIn cexAcc cexWr 0 = 50 := by
    unfold jointEfforts
    simp only [hmulJt]
    rw [hcombined, show cexCfg.gravity_compensation = false from rfl]
    norm_num
  have hrhs : (cexIn.jacobian.transpose).mulVec
      (desiredWrench cexCfg cexAcc cexWr) 0 +
      (if cexCfg.gravity_compensation then cexIn.gravity 0 else 0) = 200 := by
    simp only [hmulJt]
    have hdes : desiredWrench cexCfg cexAcc cexWr 0 = 100 := by
      unfold desiredWrench maskedMotion maskedWrench
      rw [show cexCfg.motion_control_axes 0 = 1 from rfl,
        show cexCfg.wrench_control_axes 0 = 0 from rfl, hacc]
      norm_num
    rw [hdes, show cexCfg.gravity_compensation = false from rfl]
    norm_num
  refine ⟨hres, ?_⟩
  intro h
  rw [hcomp] at h
  have h2 := congrFun (Except.ok.inj h) 0
  simp only [] at h2
  rw [hlhs, hrhs] at h2
  norm_num at h2

/-- The motion channel resolved from a `["pose_abs", "wrench_abs"]`
command list. -/
def poseWrenchAcc (kp kd : Fin 6 → ℝ) {n : ℕ} (inp : OpspaceIn n)
    (cmd : List ℝ) : Fin 6 → ℝ :=
  fun i => motionAcc kp kd "pose_abs" (cmd.take 7) inp.ee_pos inp.ee_quat
    inp.ee_vel i + ((0 : Fin 6 → ℝ) i + (0 : Fin 6 → ℝ) i)

/-- The wrench channel resolved from a `["pose_abs", "wrench_abs"]`
command list. -/
def poseWrenchWr (cfg : OperationalSpaceControllerCfg) {n : ℕ}
    (inp : OpspaceIn n) (cmd : List ℝ) : Fin 6 → ℝ :=
  fun i => (0 : Fin 6 → ℝ) i +
    (closedLoopWrench cfg (wrenchOfSeg ((cmd.drop 7).take 6)) inp.ee_force i +
      (0 : Fin 6 → ℝ) i)

lemma resolveTargets_pose_wrench (cfg : OperationalSpaceControllerCfg)
    (kp kd : Fin 6 → ℝ) {n : ℕ} (inp : OpspaceIn n) (cmd : List ℝ) :
    resolveTargets cfg kp kd inp ["pose_abs", "wrench_abs"] cmd =
      .ok (poseWrenchAcc kp kd inp cmd, poseWrenchWr cfg inp cmd) := by
  have hc1 : targetContrib cfg kp kd inp "pose_abs" (cmd.take 7) =
      Except.ok (motionAcc kp kd "pose_abs" (cmd.take 7) inp.ee_pos
        inp.ee_quat inp.ee_vel, (0 : Fin 6 → ℝ)) := by
    unfold targetContrib
    rw [if_neg (by decide), if_pos (by decide)]
  have hc2 : targetContrib cfg kp kd inp "wrench_abs" ((cmd.drop 7).take 6) =
      Except.ok ((0 : Fin 6 → ℝ), closedLoopWrench cfg
        (wrenchOfSeg ((cmd.drop 7).take 6)) inp.ee_force) := by
    unfold targetContrib
    rw [if_pos rfl]
  have h7 : targetWidth "pose_abs" = 7 := by decide
  have h6 : targetWidth "wrench_abs" = 6 := by decide
  simp only [resolveTargets, h7, h6, hc1, hc2]
  rfl

lemma motionError_abs_lt3 (t : String) (seg : List ℝ) (pos : Fin 3 → ℝ)
    (quat : Fin 4 → ℝ) (i : Fin 6) (h : (i : ℕ) < 3)
    (ht : ¬(t = "pose_rel" ∨ t = "position_rel")) :
    motionError t seg pos quat i = seg.getD (i : ℕ) 0 - pos ⟨(i : ℕ), h⟩ := by
  unfold motionError
  rw [dif_pos h]
  unfold resolveTargetPos
  rw [if_neg ht]

lemma motionError_pose_abs_ge3 (seg : List ℝ) (pos : Fin 3 → ℝ)
    (quat : Fin 4 → ℝ) (i : Fin 6) (h : ¬ (i : ℕ) < 3) :
    motionError "pose_abs" seg pos quat i =
      quat_error_vec (resolveTargetQuat "pose_abs" seg quat) quat
        ⟨(i : ℕ) - 3, by omega⟩ := by
  unfold motionError
  rw [dif_neg h, if_pos (Or.inl rfl)]

/-- C7: for a configuration with motion_control_axes = [0,1,1,1,1,1] and
wrench_control_axes = [1,0,0,0,0,0] over a pose_abs + wrench_abs command,
compute returns identical joint torques for any two commands agreeing
outside the masked-out components (the pose target's x entry, index 0, and
the wrench target's non-selected entries, indices 8–12); the masked-out
command components have no influence on the output. -/
theorem C7_hybrid_masking (cfg : OperationalSpaceControllerCfg) {n : ℕ}
    (inp : OpspaceIn n) (cmd1 cmd2 : List ℝ)
    (hty : cfg.target_types = ["pose_abs", "wrench_abs"])
    (hmot : cfg.motion_control_axes =
      fun i => if i = (0 : Fin 6) then 0 else 1)
    (hwr : cfg.wrench_control_axes =
      fun i => if i = (0 : Fin 6) then 1 else 0)
    (hagree : ∀ j : ℕ, j ≠ 0 → ¬(8 ≤ j ∧ j ≤ 12) →
      cmd1.getD j 0 = cmd2.getD j 0) :
    compute cfg cmd1 inp = compute cfg cmd2 inp := by
  unfold compute
  by_cases hm : cfg.impedance_mode ∈ validImpedanceModes
  swap
  · rw [if_neg hm, if_neg hm]
  rw [if_pos hm, if_pos hm]
  have hw13 : targetsWidth cfg.target_types = 13 := by rw [hty]; decide
  have hgain : ∀ k : ℕ, (cmd1.drop (targetsWidth cfg.target_types)).getD k 0 =
      (cmd2.drop (targetsWidth cfg.target_types)).getD k 0 := by
    intro k
    rw [hw13, listGetD_drop, listGetD_drop]
    exact hagree (13 + k) (by omega) (by omega)
  have hkp : pGains cfg (cmd1.drop (targetsWidth cfg.target_types)) =
      pGains cfg (cmd2.drop (targetsWidth cfg.target_types)) := by
    unfold pGains
    by_cases hv : cfg.impedance_mode = "variable" ∨
      cfg.impedance_mode = "variable_kp"
    · rw [if_pos hv, if_pos hv]
      funext i
      rw [hgain]
    · rw [if_neg hv, if_neg hv]
  have hdr : dampingRatiosOf cfg (cmd1.drop (targetsWidth cfg.target_types)) =
      dampingRatiosOf cfg (cmd2.drop (targetsWidth cfg.target_types)) := by
    unfold dampingRatiosOf
    by_cases hv : cfg.impedance_mode = "variable"
    · rw [if_pos hv, if_pos hv]
      funext i
      rw [hgain]
    · rw [if_neg hv, if_neg hv]
  have hkd : dGains cfg (cmd1.drop (targetsWidth cfg.target_types)) =
      dGains cfg (cmd2.drop (targetsWidth cfg.target_types)) := by
    unfold dGains
    rw [hkp, hdr]
  rw [hkp, hkd, hty]
  generalize pGains cfg
    (List.drop (targetsWidth ["pose_abs", "wrench_abs"]) cmd2) = kp
  generalize dGains cfg
    (List.drop (targetsWidth ["pose_abs", "wrench_abs"]) cmd2) = kd
  rw [resolveTargets_pose_wrench, resolveTargets_pose_wrench]
  have hseg : ∀ m : ℕ, m ≠ 0 → m < 7 →
      (cmd1.take 7).getD m 0 = (cmd2.take 7).getD m 0 := by
    intro m hm0 hm7
    rw [listGetD_take _ _ _ hm7, listGetD_take _ _ _ hm7]
    exact hagree m hm0 (by omega)
  have herr : ∀ i : Fin 6, i ≠ 0 →
      motionError "pose_abs" (cmd1.take 7) inp.ee_pos inp.ee_quat i =
      motionError "pose_abs" (cmd2.take 7) inp.ee_pos inp.ee_quat i := by
    intro i hi
    by_cases h3 : (i : ℕ) < 3
    · rw [motionError_abs_lt3 _ _ _ _ _ h3 (by decide),
        motionError_abs_lt3 _ _ _ _ _ h3 (by decide)]
      have hival : (i : ℕ) ≠ 0 := fun h => hi (Fin.ext h)
      rw [hseg (i : ℕ) hival (by omega)]
    · rw [motionError_pose_abs_ge3 _ _ _ _ h3,
        motionError_pose_abs_ge3 _ _ _ _ h3]
      have hq : resolveTargetQuat "pose_abs" (cmd1.take 7) inp.ee_quat =
          resolveTargetQuat "pose_abs" (cmd2.take 7) inp.ee_quat := by
        unfold resolveTargetQuat
        rw [if_pos rfl, if_pos rfl]
        funext k
        exact hseg (3 + (k : ℕ)) (by omega) (by omega)
      rw [hq]
  have hmask1 : maskedMotion cfg (poseWrenchAcc kp kd inp cmd1) =
      maskedMotion cfg (poseWrenchAcc kp kd inp cmd2) := by
    funext i
    unfold maskedMotion
    simp only [hmot]
    by_cases hi : i = (0 : Fin 6)
    · subst hi
      rw [if_pos rfl, zero_mul, zero_mul]
    · rw [if_neg hi, one_mul, one_mul]
      unfold poseWrenchAcc motionAcc
      rw [herr i hi]
  have hclw : ∀ w1 w2 : Fin 6 → ℝ, w1 0 = w2 0 →
      closedLoopWrench cfg w1 inp.ee_force 0 =
        closedLoopWrench cfg w2 inp.ee_force 0 := by
    intro w1 w2 hw
    unfold closedLoopWrench
    cases hks : cfg.wrench_stiffness with
    | none => exact hw
    | some ks =>
      have h03 : ((0 : Fin 6) : ℕ) < 3 := by decide
      show (if h : ((0 : Fin 6) : ℕ) < 3 then
          w1 0 + ks 0 * (w1 0 - inp.ee_force ⟨((0 : Fin 6) : ℕ), h⟩)
        else w1 0) =
        (if h : ((0 : Fin 6) : ℕ) < 3 then
          w2 0 + ks 0 * (w2 0 - inp.ee_force ⟨((0 : Fin 6) : ℕ), h⟩)
        else w2 0)
      rw [dif_pos h03, dif_pos h03, hw]
  have hmask2 : maskedWrench cfg (poseWrenchWr cfg inp cmd1) =
      maskedWrench cfg (poseWrenchWr cfg inp cmd2) := by
    funext i
    unfold maskedWrench
    simp only [hwr]
    by_cases hi : i = (0 : Fin 6)
    · subst hi
      rw [if_pos rfl, one_mul, one_mul]
      unfold poseWrenchWr
      have hw0 : wrenchOfSeg ((cmd1.drop 7).take 6) 0 =
          wrenchOfSeg ((cmd2.drop 7).take 6) 0 := by
        unfold wrenchOfSeg
        rw [listGetD_take _ _ _ (by decide), listGetD_take _ _ _ (by decide),
          listGetD_drop, listGetD_drop]
        exact hagree 7 (by omega) (by omega)
      rw [hclw _ _ hw0]
    · rw [if_neg hi, zero_mul, zero_mul]
  have hcomb : combinedWrench cfg inp.jacobian inp.mass_matrix
      (poseWrenchAcc kp kd inp cmd1) (poseWrenchWr cfg inp cmd1) =
      combinedWrench cfg inp.jacobian inp.mass_matrix
      (poseWrenchAcc kp kd inp cmd2) (poseWrenchWr cfg inp cmd2) := by
    unfold combinedWrench
    rw [hmask1, hmask2]
  have hje : jointEfforts cfg inp (poseWrenchAcc kp kd inp cmd1)
      (poseWrenchWr cfg inp cmd1) = jointEfforts cfg inp
      (poseWrenchAcc kp kd inp cmd2) (poseWrenchWr cfg inp cmd2) := by
    unfold jointEfforts
    rw [hcomb]
  show Except.ok (jointEfforts cfg inp (poseWrenchAcc kp kd inp cmd1)
      (poseWrenchWr cfg inp cmd1)) =
    Except.ok (jointEfforts cfg inp (poseWrenchAcc kp kd inp cmd2)
      (poseWrenchWr cfg inp cmd2))
  rw [hje]

/-- The hybrid-control configuration of the repository's hybrid test:
pose control on all but the x axis, force control on the x axis. -/
def cfgHybrid : OperationalSpaceControllerCfg where
  target_types := ["pose_abs", "wrench_abs"]
  motion_control_axes := fun i => if i = (0 : Fin 6) then 0 else 1
  wrench_control_axes := fun i => if i = (0 : Fin 6) then 1 else 0

/-- Witness for C7: two concrete 13-wide commands differing only in the
pose target's x entry produce the same compute output. -/
theorem C7_hybrid_masking_witness :
    compute cfgHybrid (List.replicate 13 0) trivialIn =
    compute cfgHybrid (1 :: List.replicate 12 0) trivialIn := by
  refine C7_hybrid_masking cfgHybrid trivialIn _ _ rfl rfl rfl ?_
  intro j hj _
  cases j with
  | zero => exact absurd rfl hj
  | succ m =>
    rw [show ((1 : ℝ) :: List.replicate 12 0).getD (m + 1) 0 =
      (List.replicate 12 (0 : ℝ)).getD m 0 from rfl]
    rw [listGetD_replicate_zero, listGetD_replicate_zero]

/-- C10: a configuration built with only the target-type list supplied
defaults to a pure motion impedance controller — fixed impedance, all
motion axes on, all wrench axes off, no decoupling, no inertial or gravity
compensation, stiffness 100 and damping ratio 1 on every axis, open-loop
wrench — and its wrench-channel mask annihilates every wrench
contribution to the computed torques. -/
theorem C10_default_config (ts : List String) (w : Fin 6 → ℝ) :
    ({ target_types := ts } : OperationalSpaceControllerCfg).impedance_mode
      = "fixed" ∧
    (∀ i, ({ target_types := ts } :
      OperationalSpaceControllerCfg).motion_control_axes i = 1) ∧
    (∀ i, ({ target_types := ts } :
      OperationalSpaceControllerCfg).wrench_control_axes i = 0) ∧
    ({ target_types := ts } :
      OperationalSpaceControllerCfg).uncouple_motion_wrench = false ∧
    ({ target_types := ts } :
      OperationalSpaceControllerCfg).inertial_compensation = false ∧
    ({ target_types := ts } :
      OperationalSpaceControllerCfg).gravity_compensation = false ∧
    (∀ i, ({ target_types := ts } :
      OperationalSpaceControllerCfg).stiffness i = 100) ∧
    (∀ i, ({ target_types := ts } :
      OperationalSpaceControllerCfg).damping_ratios i = 1) ∧
    ({ target_types := ts } :
      OperationalSpaceControllerCfg).wrench_stiffness = none ∧
    maskedWrench { target_types := ts } w = fun _ => 0 := by
  refine ⟨rfl, fun i => rfl, fun i => rfl, rfl, rfl, rfl, fun i => rfl,
    fun i => rfl, rfl, ?_⟩
  funext i
  show (0 : ℝ) * w i = 0
  exact zero_mul _

end OperationalSpaceController

end
